import Mathlib

/-!
Shallow embedding of the Employee Scheduler API's conflict and analytics
engine (models/Shift.js, controllers/shiftController.js,
controllers/analyticsController.js, the time-off controller, and the
Employee/TimeOffRequest models).

Modelling conventions:
- `HH:MM` time strings are represented by their minute-of-day value
  (0..1439).  On zero-padded `HH:MM` strings, JavaScript string comparison
  coincides with numeric comparison of these values, so the aggregation
  pipeline's string comparisons are modelled as numeric comparisons.
- Calendar dates (stored as UTC midnights) are represented by their day
  index since 1970-01-01; `toDateString()` equality and `$gte`/`$lte` on
  dates become equality and `≤` on these indices.  `$subtract` of two
  dates yields milliseconds, modelled as `(difference of day indices) *
  86400000`.
- Mongo documents are modelled by structures holding the persisted fields
  used by the claims.  `duration` is a mongoose *virtual* (models/Shift.js
  line 84): it is never persisted, so in aggregation the `$duration` path
  is usually missing; the field is carried as `Option ℚ` and `$sum` reads
  a missing value as 0.
- `ObjectId`s are represented by `Nat`; MongoDB guarantees `_id`
  uniqueness within a collection.
-/

set_option linter.unusedVariables false

namespace Scheduler

/-- Shift status enum (models/Shift.js lines 44-48). -/
inductive ShiftStatus where
  | scheduled
  | inProgress
  | completed
  | cancelled
deriving DecidableEq, Repr

/-- Role enum (models/Shift.js line 22, Employee model role enum). -/
inductive Role where
  | manager
  | supervisor
  | employee
  | admin
deriving DecidableEq, Repr

/-- Day of week, as produced by `Date.getDay()` / the `dayOfWeek` virtual. -/
inductive Weekday where
  | sunday
  | monday
  | tuesday
  | wednesday
  | thursday
  | friday
  | saturday
deriving DecidableEq, Repr

/-- Weekday of a day index (1970-01-01, day 0, was a Thursday).  Models the
`dayOfWeek` virtual of models/Shift.js lines 126-135. -/
def weekdayOf (d : Int) : Weekday :=
  match (d % 7).toNat with
  | 0 => .thursday
  | 1 => .friday
  | 2 => .saturday
  | 3 => .sunday
  | 4 => .monday
  | 5 => .tuesday
  | _ => .wednesday

/-- A persisted shift document (models/Shift.js schema).  Fields not used by
any claim (notes, breakDuration, hourlyRate, createdBy, lastModifiedBy)
are omitted.  `duration` models the presence of a `duration` key in the
stored BSON document: it is `none` for every document saved through the
schema, because `duration` is a virtual and virtuals are not persisted. -/
structure ShiftRec where
  id : Nat
  date : Int
  startTime : Nat
  endTime : Nat
  roleRequirement : Role
  skillRequirements : List String
  assignedEmployeeId : Option Nat
  location : String
  team : String
  status : ShiftStatus
  isOvernight : Bool
  duration : Option ℚ
deriving DecidableEq, Repr

/-- Per-weekday availability flags of an employee (Employee model
`availability` map; only the `available` booleans are consulted by
`isAvailableOnDay`, so the per-day start/end strings are omitted). -/
structure Availability where
  monday : Bool
  tuesday : Bool
  wednesday : Bool
  thursday : Bool
  friday : Bool
  saturday : Bool
  sunday : Bool
deriving DecidableEq, Repr

/-- A persisted employee document (Employee model schema); fields not used
by any claim (name, email, password, employmentType, hireDate) are
omitted. -/
structure Employee where
  id : Nat
  role : Role
  skills : List String
  team : String
  location : String
  availability : Availability
  maxHoursPerWeek : ℚ
  isActive : Bool
deriving DecidableEq, Repr

/-- `employeeSchema.methods.isAvailableOnDay`: looks up the day's
`available` flag. -/
def Employee.isAvailableOnDay (emp : Employee) (d : Weekday) : Bool :=
  match d with
  | .monday => emp.availability.monday
  | .tuesday => emp.availability.tuesday
  | .wednesday => emp.availability.wednesday
  | .thursday => emp.availability.thursday
  | .friday => emp.availability.friday
  | .saturday => emp.availability.saturday
  | .sunday => emp.availability.sunday

/-- Time-off request status enum (TimeOffRequest model). -/
inductive TimeOffStatus where
  | pending
  | approved
  | rejected
  | cancelled
deriving DecidableEq, Repr

/-- A persisted time-off request document (TimeOffRequest model schema);
fields not used by any claim (reason, requestType, half-day data, notes,
emergency contact, totalDays) are omitted. -/
structure TimeOffReq where
  id : Nat
  employeeId : Nat
  startDate : Int
  endDate : Int
  status : TimeOffStatus
deriving DecidableEq, Repr

/-! ## models/Shift.js: overnight flag, overlap detector, conflict fetch -/

/-- The pre-save middleware (models/Shift.js lines 157-169): stores
`isOvernight = end < start` (strict `Date` comparison of the two
times-of-day). -/
def setOvernightOnSave (s : ShiftRec) : ShiftRec :=
  { s with isOvernight := decide (s.endTime < s.startTime) }

/-- The end minute used by `overlapsWith` (models/Shift.js lines 179-190):
24h (1440 minutes) is added to the end only when the record is flagged
overnight *and* its end is strictly before its start. -/
def effectiveEnd (s : ShiftRec) : Nat :=
  if s.isOvernight ∧ s.endTime < s.startTime then s.endTime + 1440 else s.endTime

/-- `shiftSchema.methods.overlapsWith` (models/Shift.js lines 172-197):
false when the calendar dates differ, otherwise the half-open interval
test `start1 < end2 && start2 < end1` on overnight-adjusted ends. -/
def overlapsWith (a b : ShiftRec) : Bool :=
  if a.date ≠ b.date then false
  else decide (a.startTime < effectiveEnd b) && decide (b.startTime < effectiveEnd a)

/-- `shiftSchema.statics.findConflicts` (models/Shift.js lines 268-285).
The query filters only on employee, exact date, status in
{scheduled, in-progress} and the optional excluded id.  The `startTime`
and `endTime` parameters are accepted but never used — exactly as in the
source. -/
def findConflicts (db : List ShiftRec) (employeeId : Nat) (date : Int)
    (startTime endTime : Nat) (excludeShiftId : Option Nat) : List ShiftRec :=
  db.filter (fun s =>
    decide (s.assignedEmployeeId = some employeeId) && decide (s.date = date)
      && (decide (s.status = .scheduled) || decide (s.status = .inProgress))
      && (match excludeShiftId with
          | some ex => decide (s.id ≠ ex)
          | none => true))

/-- `shiftSchema.methods.isEmployeeAvailable` (models/Shift.js lines
199-228): day availability, then any-of skill match, then role equality.
No controller ever calls this method. -/
def isEmployeeAvailable (shift : ShiftRec) (emp : Employee) : Bool :=
  if emp.isAvailableOnDay (weekdayOf shift.date) = false then false
  else if shift.skillRequirements ≠ [] ∧
      shift.skillRequirements.any (fun sk => emp.skills.contains sk) = false then false
  else if shift.roleRequirement ≠ emp.role then false
  else true

/-! ## controllers/shiftController.js: assignShift -/

/-- Failure reasons of the assignment endpoint, in source order
(controllers/shiftController.js lines 412-478). -/
inductive AssignError where
  | shiftNotFound
  | shiftNotScheduled
  | employeeNotFound
  | employeeInactive
  | conflictingShifts (conflicts : List ShiftRec)
  | employeeUnavailable
  | insufficientSkills
  | timeOffConflict
deriving DecidableEq, Repr

/-- The `assignShift` controller (controllers/shiftController.js lines
412-493), modelled as a pure decision over in-memory collections.  The
check sequence is exactly the source's: shift found and scheduled,
employee found and active, `findConflicts` non-empty, day availability,
any-of skill match, approved time off containing the shift date.  On
success the shift is updated with the new employee.  Note that — as in
the source — no comparison of `employee.role` against
`shift.roleRequirement` occurs anywhere on this path. -/
def assignShift (shifts : List ShiftRec) (employees : List Employee)
    (timeOffs : List TimeOffReq) (shiftId assignedEmployeeId : Nat) :
    Except AssignError ShiftRec :=
  match shifts.find? (fun s => s.id == shiftId) with
  | none => .error .shiftNotFound
  | some shift =>
    if shift.status ≠ .scheduled then .error .shiftNotScheduled
    else
      match employees.find? (fun e => e.id == assignedEmployeeId) with
      | none => .error .employeeNotFound
      | some employee =>
        if employee.isActive = false then .error .employeeInactive
        else
          let conflicts := findConflicts shifts assignedEmployeeId shift.date
            shift.startTime shift.endTime (some shift.id)
          if conflicts ≠ [] then .error (.conflictingShifts conflicts)
          else if employee.isAvailableOnDay (weekdayOf shift.date) = false then
            .error .employeeUnavailable
          else if shift.skillRequirements ≠ [] ∧
              shift.skillRequirements.any (fun sk => employee.skills.contains sk) = false then
            .error .insufficientSkills
          else
            match timeOffs.find? (fun t =>
                t.employeeId == assignedEmployeeId && decide (t.status = .approved)
                  && decide (t.startDate ≤ shift.date) && decide (shift.date ≤ t.endDate)) with
            | some _ => .error .timeOffConflict
            | none => .ok { shift with assignedEmployeeId := some assignedEmployeeId }

/-- Decidable equality of controller outcomes, needed to evaluate the
model at concrete inputs. -/
instance {e a : Type} [DecidableEq e] [DecidableEq a] : DecidableEq (Except e a) :=
  fun x y =>
    match x, y with
    | .error e1, .error e2 =>
      if h : e1 = e2 then .isTrue (by rw [h]) else .isFalse (fun hc => h (Except.error.inj hc))
    | .ok a1, .ok a2 =>
      if h : a1 = a2 then .isTrue (by rw [h]) else .isFalse (fun hc => h (Except.ok.inj hc))
    | .error _, .ok _ => .isFalse (fun hc => Except.noConfusion hc)
    | .ok _, .error _ => .isFalse (fun hc => Except.noConfusion hc)

/-! ## Shared aggregation plumbing -/

/-- First-occurrence key list: the distinct grouping keys of an
aggregation `$group` stage, in encounter order. -/
def firstKeys {κ : Type} [DecidableEq κ] (l : List κ) : List κ :=
  l.foldl (fun acc k => if k ∈ acc then acc else acc ++ [k]) []

/-- The `$lookup` (employees on `assignedEmployeeId = _id`) followed by a
plain `$unwind: $employee` used by every analytics pipeline: each shift
document is paired with each matching employee document, and a shift
whose lookup array is empty — unassigned, or assigned to a deleted
employee — is dropped, because `$unwind` without
`preserveNullAndEmptyArrays` removes documents with an empty array. -/
def lookupUnwind (employees : List Employee) (docs : List ShiftRec) :
    List (ShiftRec × Employee) :=
  docs.flatMap (fun s =>
    (employees.filter (fun e => decide (s.assignedEmployeeId = some e.id))).map
      (fun e => (s, e)))

/-- Value the aggregation reads for the `$duration` path of a shift
document: the stored value if the key is present, else 0 (`$sum` and
`$cond` treat a missing field as contributing 0 here). -/
def durVal (s : ShiftRec) : ℚ :=
  s.duration.getD 0

/-- Optional equality filter (`location`/`team`/`role` query filters: the
condition is added to `$match` only when the parameter is supplied). -/
def optMatch {α : Type} [DecidableEq α] (filt : Option α) (v : α) : Bool :=
  match filt with
  | some f => decide (v = f)
  | none => true

/-- Grouping by `$assignedEmployeeId` over unwound (shift, employee) pairs,
as in the conflict and workload pipelines: one group per distinct
assigned employee id, carrying the `$first` employee document and the
pushed shift documents. -/
def groupByEmployee (docs : List (ShiftRec × Employee)) :
    List (Nat × Employee × List ShiftRec) :=
  (firstKeys (docs.filterMap (fun p => p.1.assignedEmployeeId))).filterMap
    (fun eid =>
      match docs.filter (fun p => decide (p.1.assignedEmployeeId = some eid)) with
      | [] => none
      | p0 :: rest => some (eid, p0.2, (p0 :: rest).map (fun p => p.1)))

/-! ## controllers/analyticsController.js: coverage pipeline -/

/-- `$match` of the coverage pipeline (lines 25-31): date in range, status
in {scheduled, in-progress, completed}, optional location/team filters. -/
def coverageMatch (qs qe : Int) (loc team : Option String) (s : ShiftRec) : Bool :=
  decide (qs ≤ s.date) && decide (s.date ≤ qe)
    && (decide (s.status = .scheduled) || decide (s.status = .inProgress)
        || decide (s.status = .completed))
    && optMatch loc s.location && optMatch team s.team

/-- A level-1 coverage group (lines 45-60): keyed by
(date, location, team, roleRequirement). -/
structure Level1Row where
  date : Int
  location : String
  team : String
  role : Role
  totalShifts : Nat
  totalHours : ℚ
  assignedShifts : Nat
  unassignedShifts : Nat
  assignedHours : ℚ
  unassignedHours : ℚ
deriving DecidableEq, Repr

/-- The per-role entry pushed into the level-2 `roles` array (lines 68-78). -/
structure RoleCoverage where
  role : Role
  totalShifts : Nat
  totalHours : ℚ
  assignedShifts : Nat
  unassignedShifts : Nat
  assignedHours : ℚ
  unassignedHours : ℚ
deriving DecidableEq, Repr

/-- A level-2 coverage row (lines 61-102): keyed by (date, location, team),
with the per-role breakdown and the two percentages added by
`$addFields`. -/
structure CoverageRow where
  date : Int
  location : String
  team : String
  roles : List RoleCoverage
  totalShifts : Nat
  totalHours : ℚ
  assignedShifts : Nat
  unassignedShifts : Nat
  assignedHours : ℚ
  unassignedHours : ℚ
  coveragePercentage : ℚ
  hoursCoveragePercentage : ℚ
deriving DecidableEq, Repr

/-- Level-1 `$group` of the coverage pipeline (lines 45-60): for each
distinct (date, location, team, role) key, count the documents, sum
`$duration`, and split counts/hours by whether `assignedEmployeeId` is
non-null. -/
def coverageLevel1 (docs : List ShiftRec) : List Level1Row :=
  (firstKeys (docs.map (fun s => (s.date, s.location, s.team, s.roleRequirement)))).map
    (fun k =>
      let grp := docs.filter (fun s =>
        decide ((s.date, s.location, s.team, s.roleRequirement) = k))
      { date := k.1, location := k.2.1, team := k.2.2.1, role := k.2.2.2
        totalShifts := grp.length
        totalHours := (grp.map durVal).sum
        assignedShifts :=
          ((grp.map (fun s => if s.assignedEmployeeId ≠ none then (1 : Nat) else 0)).sum)
        unassignedShifts :=
          ((grp.map (fun s => if s.assignedEmployeeId = none then (1 : Nat) else 0)).sum)
        assignedHours :=
          (grp.map (fun s => if s.assignedEmployeeId ≠ none then durVal s else 0)).sum
        unassignedHours :=
          (grp.map (fun s => if s.assignedEmployeeId = none then durVal s else 0)).sum })

/-- Level-2 `$group` plus the `$addFields` percentages of the coverage
pipeline (lines 61-102): re-group level-1 rows by (date, location, team),
push the per-role breakdown, sum the totals, and compute
`coveragePercentage = assignedShifts / max(totalShifts, 1) * 100` and the
analogous hours percentage. -/
def coverageLevel2 (rows : List Level1Row) : List CoverageRow :=
  (firstKeys (rows.map (fun r => (r.date, r.location, r.team)))).map
    (fun k =>
      let grp := rows.filter (fun r => decide ((r.date, r.location, r.team) = k))
      let totalShifts := (grp.map (fun r => r.totalShifts)).sum
      let totalHours := (grp.map (fun r => r.totalHours)).sum
      let assignedShifts := (grp.map (fun r => r.assignedShifts)).sum
      let assignedHours := (grp.map (fun r => r.assignedHours)).sum
      { date := k.1, location := k.2.1, team := k.2.2
        roles := grp.map (fun r =>
          { role := r.role, totalShifts := r.totalShifts, totalHours := r.totalHours
            assignedShifts := r.assignedShifts, unassignedShifts := r.unassignedShifts
            assignedHours := r.assignedHours, unassignedHours := r.unassignedHours })
        totalShifts := totalShifts
        totalHours := totalHours
        assignedShifts := assignedShifts
        unassignedShifts := (grp.map (fun r => r.unassignedShifts)).sum
        assignedHours := assignedHours
        unassignedHours := (grp.map (fun r => r.unassignedHours)).sum
        coveragePercentage := ((assignedShifts : ℚ) / ((max totalShifts 1 : Nat) : ℚ)) * 100
        hoursCoveragePercentage := (assignedHours / max totalHours 1) * 100 })

/-- The full coverage aggregation (lines 34-106): match, employee
lookup/unwind, two grouping levels, percentages.  The final `$sort` only
reorders rows and is irrelevant to the claims, so it is not modelled. -/
def coverageReport (db : List ShiftRec) (employees : List Employee)
    (qs qe : Int) (loc team : Option String) : List CoverageRow :=
  coverageLevel2 (coverageLevel1
    ((lookupUnwind employees (db.filter (coverageMatch qs qe loc team))).map
      (fun p => p.1)))

/-! ## controllers/analyticsController.js: conflict pipeline -/

/-- `$match` of the conflict pipeline (lines 183-189): date in range,
status in {scheduled, in-progress}, optional location/team filters. -/
def conflictMatch (qs qe : Int) (loc team : Option String) (s : ShiftRec) : Bool :=
  decide (qs ≤ s.date) && decide (s.date ≤ qe)
    && (decide (s.status = .scheduled) || decide (s.status = .inProgress))
    && optMatch loc s.location && optMatch team s.team

/-- The inner `$filter` condition of the conflict pipeline (lines 242-263):
distinct ids, equal dates, and the time test
`(a.start <= b.start && a.end > b.start) || (b.start <= a.start && b.end > a.start)`
on the raw stored times (string comparison on zero-padded `HH:MM`,
modelled numerically; no overnight adjustment is applied here). -/
def conflictCondition (a b : ShiftRec) : Bool :=
  decide (a.id ≠ b.id) && decide (a.date = b.date)
    && ((decide (a.startTime ≤ b.startTime) && decide (a.endTime > b.startTime))
        || (decide (b.startTime ≤ a.startTime) && decide (b.endTime > a.startTime)))

/-- The `conflicts` array added per employee group (lines 229-273): the
member shifts having at least one counterpart in the same set that
satisfies `conflictCondition`. -/
def conflictsStage (shifts : List ShiftRec) : List ShiftRec :=
  shifts.filter (fun s =>
    decide (0 < (shifts.filter (fun o => conflictCondition s o)).length))

/-- The employee groups of the conflict pipeline after the
`totalShifts > 1` match (lines 192-228). -/
def conflictGroups (db : List ShiftRec) (employees : List Employee)
    (qs qe : Int) (loc team : Option String) : List (Nat × Employee × List ShiftRec) :=
  (groupByEmployee (lookupUnwind employees (db.filter (conflictMatch qs qe loc team)))).filter
    (fun g => decide (1 < g.2.2.length))

/-- The rows of the conflict report (lines 229-294): each surviving group's
employee id with its `conflicts` array, keeping only groups whose array
is non-empty (`$match: conflicts.0 exists`); `conflictCount` is the array
size.  The final `$sort` only reorders rows and does not affect the
summary sums. -/
def conflictRows (db : List ShiftRec) (employees : List Employee)
    (qs qe : Int) (loc team : Option String) : List (Nat × List ShiftRec) :=
  ((conflictGroups db employees qs qe loc team).map
      (fun g => (g.1, conflictsStage g.2.2))).filter
    (fun r => !r.2.isEmpty)

/-- `summary.totalConflicts` of `getConflictAnalytics` (line 360): the sum
over report rows of `conflictCount`. -/
def totalConflicts (db : List ShiftRec) (employees : List Employee)
    (qs qe : Int) (loc team : Option String) : Nat :=
  ((conflictRows db employees qs qe loc team).map (fun r => r.2.length)).sum

/-! ## controllers/analyticsController.js: workload pipeline -/

/-- `$match` of the workload pipeline (lines 400-407): date in range,
status in {scheduled, in-progress, completed}, optional
location/team/role filters. -/
def workloadMatch (qs qe : Int) (loc team : Option String) (role : Option Role)
    (s : ShiftRec) : Bool :=
  decide (qs ≤ s.date) && decide (s.date ≤ qe)
    && (decide (s.status = .scheduled) || decide (s.status = .inProgress)
        || decide (s.status = .completed))
    && optMatch loc s.location && optMatch team s.team
    && optMatch role s.roleRequirement

/-- The range validation shared by the analytics endpoints (e.g. lines
392-397): the request is rejected only when start is strictly after
end — equal dates pass. -/
def validateAnalyticsRange (qs qe : Int) : Bool :=
  !(decide (qs > qe))

/-- Milliseconds of a date value (dates are stored as UTC midnights). -/
def msOfDay (d : Int) : Int :=
  d * 86400000

/-- The weekly divisor of the workload pipeline (line 450):
`ceil((end - start) / (1000*60*60*24*7))` where the subtraction of the
two `Date`s yields milliseconds. -/
def weeksDivisor (qs qe : Int) : Int :=
  Int.ceil (((msOfDay qe - msOfDay qs : Int) : ℚ) / (1000 * 60 * 60 * 24 * 7))

/-- MongoDB `$divide`: dividing by zero raises an error, which aborts the
whole aggregation; modelled as `none`. -/
def mongoDiv (a b : ℚ) : Option ℚ :=
  if b = 0 then none else some (a / b)

/-- One row of the enriched workload report.  `averageShiftDuration`,
`overnightShifts`, `weekendShifts`, the employee name/contact fields and
`totalTimeOffDays` are not consulted by any claim and are omitted. -/
structure WorkloadRow where
  employeeId : Nat
  maxHoursPerWeek : ℚ
  totalShifts : Nat
  totalHours : ℚ
  averageHoursPerWeek : ℚ
  utilizationPercentage : ℚ
  adjustedUtilizationPercentage : ℚ
deriving DecidableEq, Repr

/-- One employee group of the workload pipeline turned into a report row
(lines 421-467 and the JS enrichment at lines 491-499):
`totalHours = $sum $duration`, `averageHoursPerWeek = totalHours /
weeksDivisor` (a `$divide`, erroring on a zero divisor),
`utilizationPercentage = averageHoursPerWeek / max(maxHoursPerWeek, 1) *
100`, and `adjustedUtilizationPercentage = maxHoursPerWeek > 0 ?
min(100, averageHoursPerWeek / maxHoursPerWeek * 100) : 0`. -/
def workloadRowOf (qs qe : Int) (g : Nat × Employee × List ShiftRec) :
    Option WorkloadRow :=
  let totalHours := (g.2.2.map durVal).sum
  match mongoDiv totalHours ((weeksDivisor qs qe : Int) : ℚ) with
  | none => none
  | some avg =>
    match mongoDiv avg (max g.2.1.maxHoursPerWeek 1) with
    | none => none
    | some u =>
      some { employeeId := g.1
             maxHoursPerWeek := g.2.1.maxHoursPerWeek
             totalShifts := g.2.2.length
             totalHours := totalHours
             averageHoursPerWeek := avg
             utilizationPercentage := u * 100
             adjustedUtilizationPercentage :=
               if 0 < g.2.1.maxHoursPerWeek then
                 min 100 (avg / g.2.1.maxHoursPerWeek * 100)
               else 0 }

/-- All-or-nothing traversal: `some` of all results when every element
succeeds, `none` as soon as one fails (an erroring `$addFields`
aborts the whole aggregation). -/
def optionTraverse {α β : Type} (f : α → Option β) : List α → Option (List β)
  | [] => some []
  | a :: as =>
    match f a, optionTraverse f as with
    | some b, some bs => some (b :: bs)
    | _, _ => none

/-- The workload report (lines 410-499): match, employee lookup/unwind,
group by employee, derived fields.  An aggregation error (division by a
zero weekly divisor) aborts the whole report, hence the `Option`. -/
def workloadReport (db : List ShiftRec) (employees : List Employee)
    (qs qe : Int) (loc team : Option String) (role : Option Role) :
    Option (List WorkloadRow) :=
  optionTraverse (workloadRowOf qs qe)
    (groupByEmployee (lookupUnwind employees
      (db.filter (workloadMatch qs qe loc team role))))

/-! ## Time-off controller: createTimeOffRequest -/

/-- Failure reasons of `createTimeOffRequest`, in source order. -/
inductive TimeOffError where
  | invalidDateRange
  | pastDateNotAllowed
  | shiftConflict (conflicts : List ShiftRec)
  | timeOffOverlap (conflicts : List TimeOffReq)
deriving DecidableEq, Repr

/-- The shift-conflict query of `createTimeOffRequest`: the requester's
shifts whose date lies in the inclusive `[startDate, endDate]` range with
status in {scheduled, in-progress}. -/
def timeOffShiftConflicts (shifts : List ShiftRec) (empId : Nat)
    (startDate endDate : Int) : List ShiftRec :=
  shifts.filter (fun sh =>
    decide (sh.assignedEmployeeId = some empId)
      && decide (startDate ≤ sh.date) && decide (sh.date ≤ endDate)
      && (decide (sh.status = .scheduled) || decide (sh.status = .inProgress)))

/-- The approved-time-off overlap query of `createTimeOffRequest`: the
requester's approved requests whose range intersects the new range. -/
def approvedTimeOffOverlapping (timeOffs : List TimeOffReq) (empId : Nat)
    (startDate endDate : Int) : List TimeOffReq :=
  timeOffs.filter (fun t =>
    decide (t.employeeId = empId) && decide (t.status = .approved)
      && decide (t.startDate ≤ endDate) && decide (startDate ≤ t.endDate))

/-- `createTimeOffRequest` (time-off controller): reject an inverted range,
then a start in the past (`now` is the clock reading at the request),
then shift conflicts, then overlapping approved time off; only then is
the new request constructed (with status defaulting to pending). -/
def createTimeOffRequest (now : Int) (shifts : List ShiftRec)
    (timeOffs : List TimeOffReq) (empId newId : Nat) (startDate endDate : Int) :
    Except TimeOffError TimeOffReq :=
  if startDate > endDate then .error .invalidDateRange
  else if startDate < now then .error .pastDateNotAllowed
  else
    let conflicts := timeOffShiftConflicts shifts empId startDate endDate
    if conflicts ≠ [] then .error (.shiftConflict conflicts)
    else
      let existing := approvedTimeOffOverlapping timeOffs empId startDate endDate
      if existing ≠ [] then .error (.timeOffOverlap existing)
      else .ok ⟨newId, empId, startDate, endDate, .pending⟩

/-- The persisted time-off collection after a create attempt: the new
document is saved only on the success path. -/
def timeOffDbAfterCreate (now : Int) (shifts : List ShiftRec)
    (timeOffs : List TimeOffReq) (empId newId : Nat) (startDate endDate : Int) :
    List TimeOffReq :=
  match createTimeOffRequest now shifts timeOffs empId newId startDate endDate with
  | .ok r => timeOffs ++ [r]
  | .error _ => timeOffs

/-! ## Concrete fixtures used by the witnesses and counterexamples -/

/-- Day index of 2024-01-15 (a Monday). -/
def d0115 : Int := 19737

/-- All-week availability (every `available` flag true). -/
def allWeek : Availability :=
  ⟨true, true, true, true, true, true, true⟩

/-- Employee E of the end-to-end scenario: active, available all week,
skills {"A"}, maxHoursPerWeek 40. -/
def e7 : Employee :=
  ⟨7, .employee, ["A"], "Alpha", "Main", allWeek, 40, true⟩

/-- Shift S1 of the end-to-end scenario: 2024-01-15 09:00-17:00, scheduled,
assigned to employee 7. -/
def s0915 : ShiftRec :=
  ⟨1, d0115, 540, 1020, .employee, ["A"], some 7, "Main", "Alpha", .scheduled, false, none⟩

/-- The exactly back-to-back shift: 2024-01-15 17:00-20:00, unassigned,
scheduled, no skill requirements. -/
def s1720 : ShiftRec :=
  ⟨2, d0115, 1020, 1200, .employee, [], none, "Main", "Alpha", .scheduled, false, none⟩

/-- A degenerate shift record 09:00-09:00 in saved form (the pre-save hook
stores `isOvernight = false` for it, since `end < start` fails). -/
def s0909 : ShiftRec :=
  ⟨3, d0115, 540, 540, .employee, [], some 7, "Main", "Alpha", .scheduled, false, none⟩

/-- A shift requiring a manager, with no skill requirements, on a Monday. -/
def m1 : ShiftRec :=
  ⟨10, d0115, 540, 1020, .manager, [], none, "Main", "Alpha", .scheduled, false, none⟩

/-- A shift declaring two required skills. -/
def c7shift : ShiftRec :=
  ⟨20, d0115, 540, 1020, .employee, ["cooking", "serving"], none, "Main", "Alpha",
    .scheduled, false, none⟩

/-- An active, fully available employee holding none of c7shift's skills. -/
def c7emp : Employee :=
  ⟨21, .employee, ["cleaning"], "Alpha", "Main", allWeek, 40, true⟩

/-- Coverage fixture: employee the three assigned shifts point to. -/
def e9 : Employee :=
  ⟨9, .employee, ["A"], "Alpha", "Main", allWeek, 40, true⟩

/-- Coverage fixture: assigned shift 1 of 3. -/
def cs1 : ShiftRec :=
  ⟨31, d0115, 540, 1020, .employee, [], some 9, "Main", "Alpha", .scheduled, false, none⟩

/-- Coverage fixture: assigned shift 2 of 3. -/
def cs2 : ShiftRec :=
  ⟨32, d0115, 600, 1080, .employee, [], some 9, "Main", "Alpha", .scheduled, false, none⟩

/-- Coverage fixture: assigned shift 3 of 3. -/
def cs3 : ShiftRec :=
  ⟨33, d0115, 660, 1140, .employee, [], some 9, "Main", "Alpha", .scheduled, false, none⟩

/-- Coverage fixture: the unassigned shift (employee reference null). -/
def cs4 : ShiftRec :=
  ⟨34, d0115, 720, 1200, .employee, [], none, "Main", "Alpha", .scheduled, false, none⟩

/-- Conflict fixture: 09:00-12:00, employee 7. -/
def t31 : ShiftRec :=
  ⟨41, d0115, 540, 720, .employee, [], some 7, "Main", "Alpha", .scheduled, false, none⟩

/-- Conflict fixture: 10:00-13:00, employee 7. -/
def t32 : ShiftRec :=
  ⟨42, d0115, 600, 780, .employee, [], some 7, "Main", "Alpha", .scheduled, false, none⟩

/-- Conflict fixture: 11:00-14:00, employee 7. -/
def t33 : ShiftRec :=
  ⟨43, d0115, 660, 840, .employee, [], some 7, "Main", "Alpha", .scheduled, false, none⟩

/-- Workload fixture: an active employee with `maxHoursPerWeek = 0`. -/
def e0max : Employee :=
  ⟨11, .employee, [], "Alpha", "Main", allWeek, 0, true⟩

/-- Workload fixture: a scheduled shift assigned to the zero-max employee. -/
def ws1 : ShiftRec :=
  ⟨51, d0115, 540, 1020, .employee, [], some 11, "Main", "Alpha", .scheduled, false, none⟩

/-- The workload row produced for e0max over 2024-01-15..2024-01-22. -/
def r0max : WorkloadRow :=
  ⟨11, 0, 1, 0, 0, 0, 0⟩

/-! ## Helper lemmas -/

theorem bool_eq_of_iff {x y : Bool} (h : x = true ↔ y = true) : x = y := by
  cases x <;> cases y <;> simp_all

/-- For non-overnight, positive-length shifts, the conflict pipeline's raw
time condition coincides with distinct ids plus the 4.2 overlap test. -/
theorem conflictCondition_eq_overlap (a b : ShiftRec)
    (ha : a.isOvernight = false) (hb : b.isOvernight = false)
    (ha2 : a.startTime < a.endTime) (hb2 : b.startTime < b.endTime) :
    conflictCondition a b = (decide (b.id ≠ a.id) && overlapsWith a b) := by
  by_cases hd : a.date = b.date
  · have hea : effectiveEnd a = a.endTime := by simp [effectiveEnd, ha]
    have heb : effectiveEnd b = b.endTime := by simp [effectiveEnd, hb]
    have hov : overlapsWith a b
        = (decide (a.startTime < b.endTime) && decide (b.startTime < a.endTime)) := by
      simp [overlapsWith, hd, hea, heb]
    rw [hov]
    apply bool_eq_of_iff
    simp only [conflictCondition, Bool.and_eq_true, Bool.or_eq_true, decide_eq_true_eq,
      ne_eq]
    constructor
    · rintro ⟨⟨hid, -⟩, hor⟩
      refine ⟨fun h => hid h.symm, ?_, ?_⟩ <;> omega
    · rintro ⟨hid, hs1, hs2⟩
      exact ⟨⟨fun h => hid h.symm, hd⟩, by omega⟩
  · have hov : overlapsWith a b = false := by simp [overlapsWith, hd]
    rw [hov, Bool.and_false]
    simp [conflictCondition, hd]

theorem mem_of_mem_lookupUnwind {employees : List Employee} {docs : List ShiftRec}
    {p : ShiftRec × Employee} (hp : p ∈ lookupUnwind employees docs) : p.1 ∈ docs := by
  unfold lookupUnwind at hp
  obtain ⟨s, hs, hmem⟩ := List.mem_flatMap.mp hp
  obtain ⟨e, he, rfl⟩ := List.mem_map.mp hmem
  exact hs

theorem mem_of_mem_groupByEmployee {docs : List (ShiftRec × Employee)}
    {g : Nat × Employee × List ShiftRec} (hg : g ∈ groupByEmployee docs)
    {s : ShiftRec} (hs : s ∈ g.2.2) : ∃ p ∈ docs, p.1 = s := by
  unfold groupByEmployee at hg
  obtain ⟨eid, hkey, hsome⟩ := List.mem_filterMap.mp hg
  rcases hfil : docs.filter (fun p => decide (p.1.assignedEmployeeId = some eid)) with
    _ | ⟨p0, rest⟩
  · rw [hfil] at hsome
    exact absurd hsome (by simp)
  · rw [hfil] at hsome
    have hg2 := Option.some.inj hsome
    rw [← hg2] at hs
    obtain ⟨p, hp, rfl⟩ := List.mem_map.mp hs
    have hpd : p ∈ docs.filter (fun p => decide (p.1.assignedEmployeeId = some eid)) := by
      rw [hfil]; exact hp
    exact ⟨p, (List.mem_filter.mp hpd).1, rfl⟩

theorem mem_db_of_mem_conflictGroups {db : List ShiftRec} {employees : List Employee}
    {qs qe : Int} {loc team : Option String} {g : Nat × Employee × List ShiftRec}
    (hg : g ∈ conflictGroups db employees qs qe loc team)
    {s : ShiftRec} (hs : s ∈ g.2.2) : s ∈ db := by
  unfold conflictGroups at hg
  obtain ⟨p, hp, rfl⟩ := mem_of_mem_groupByEmployee (List.mem_filter.mp hg).1 hs
  exact (List.mem_filter.mp (mem_of_mem_lookupUnwind hp)).1

/-- On a set of non-overnight, positive-length shifts, the size of the
pipeline's `conflicts` array equals the number of member shifts overlapped
(in the sense of `overlapsWith`) by at least one other member. -/
theorem conflictsStage_length_overlap (shifts : List ShiftRec)
    (h : ∀ s ∈ shifts, s.isOvernight = false ∧ s.startTime < s.endTime) :
    (conflictsStage shifts).length
      = (shifts.filter (fun s =>
          shifts.any (fun o => decide (o.id ≠ s.id) && overlapsWith s o))).length := by
  unfold conflictsStage
  congr 1
  apply List.filter_congr
  intro s hs
  apply bool_eq_of_iff
  simp only [decide_eq_true_eq, List.any_eq_true]
  constructor
  · intro hpos
    obtain ⟨o, ho⟩ := List.length_pos_iff_exists_mem.mp hpos
    obtain ⟨ho1, ho2⟩ := List.mem_filter.mp ho
    refine ⟨o, ho1, ?_⟩
    rwa [conflictCondition_eq_overlap s o (h s hs).1 (h o ho1).1 (h s hs).2 (h o ho1).2]
      at ho2
  · rintro ⟨o, ho, hco⟩
    apply List.length_pos_iff_exists_mem.mpr
    refine ⟨o, List.mem_filter.mpr ⟨ho, ?_⟩⟩
    rw [conflictCondition_eq_overlap s o (h s hs).1 (h o ho).1 (h s hs).2 (h o ho).2]
    exact hco

/-- Dropping the groups whose `conflicts` array is empty does not change
the sum of the array sizes. -/
theorem sum_conflictRows_eq (gs : List (Nat × Employee × List ShiftRec)) :
    (((gs.map (fun g => (g.1, conflictsStage g.2.2))).filter
        (fun r => !r.2.isEmpty)).map (fun r => r.2.length)).sum
      = (gs.map (fun g => (conflictsStage g.2.2).length)).sum := by
  induction gs with
  | nil => rfl
  | cons g gs ih =>
    by_cases hc : (conflictsStage g.2.2).isEmpty
    · have hlen : (conflictsStage g.2.2).length = 0 := by
        rw [List.isEmpty_iff] at hc
        simp [hc]
      simp [List.filter_cons, hc, ih, hlen]
    · simp [List.filter_cons, hc, ih]

theorem mem_of_optionTraverse {α β : Type} (f : α → Option β) :
    ∀ (l : List α) (out : List β), optionTraverse f l = some out →
      ∀ r ∈ out, ∃ a ∈ l, f a = some r := by
  intro l
  induction l with
  | nil =>
    intro out hout r hr
    simp only [optionTraverse, Option.some.injEq] at hout
    rw [← hout] at hr
    exact absurd hr (by simp)
  | cons a as ih =>
    intro out hout r hr
    simp only [optionTraverse] at hout
    cases hfa : f a with
    | none => rw [hfa] at hout; exact absurd hout (by simp)
    | some b =>
      rw [hfa] at hout
      cases hrest : optionTraverse f as with
      | none => rw [hrest] at hout; exact absurd hout (by simp)
      | some bs =>
        rw [hrest] at hout
        have hout2 := Option.some.inj hout
        rw [← hout2] at hr
        rcases List.mem_cons.mp hr with hr1 | hr2
        · exact ⟨a, List.mem_cons_self a as, by rw [hfa, hr1]⟩
        · obtain ⟨a2, ha2, hfa2⟩ := ih bs hrest r hr2
          exact ⟨a2, List.mem_cons_of_mem a ha2, hfa2⟩

/-! ## Claim theorems -/

/-- Claim C1 (code bug): the targeted conflict check is claimed to report
as conflicts exactly the same-employee, same-date scheduled/in-progress
shifts whose interval overlaps the proposed one, so that a 17:00-20:00
assignment back-to-back with an existing 09:00-17:00 shift is accepted.
In the source, `findConflicts` never reads its `startTime`/`endTime`
parameters: the existing shift is returned as a conflict even though the
4.2 overlap test is false for it, and `assignShift` therefore rejects the
exactly back-to-back assignment. -/
theorem C1_targeted_conflict_check_ignores_interval :
    findConflicts [s0915, s1720] 7 d0115 1020 1200 (some 2) = [s0915]
    ∧ overlapsWith s0915 s1720 = false
    ∧ assignShift [s0915, s1720] [e7] [] 2 7 = .error (.conflictingShifts [s0915]) := by
  decide

/-- Claim C2 (amended): on same-date records, `overlapsWith` is exactly the
half-open test `a.start < b.end && b.start < a.end` on overnight-adjusted
ends; it is symmetric; it returns true on two identical intervals
*provided* the adjusted interval is non-empty (`start < effectiveEnd`);
and it returns false whenever `a.end <= b.start`.  The non-emptiness
proviso is forced: a saved record with `startTime = endTime` has an empty
interval and does not overlap itself (see the counterexample). -/
theorem C2_overlap_properties (a b : ShiftRec) :
    (a.date = b.date →
      (overlapsWith a b = true ↔
        a.startTime < effectiveEnd b ∧ b.startTime < effectiveEnd a))
    ∧ overlapsWith a b = overlapsWith b a
    ∧ (a.startTime < effectiveEnd a → overlapsWith a a = true)
    ∧ (effectiveEnd a ≤ b.startTime → overlapsWith a b = false) := by
  refine ⟨?_, ?_, ?_, ?_⟩
  · intro hd
    simp [overlapsWith, hd]
  · by_cases hd : a.date = b.date
    · simp only [overlapsWith]
      rw [if_neg (show ¬ a.date ≠ b.date by simp [hd]),
        if_neg (show ¬ b.date ≠ a.date by simp [hd])]
      exact Bool.and_comm _ _
    · have hd2 : b.date ≠ a.date := fun h => hd h.symm
      simp [overlapsWith, hd, hd2]
  · intro h
    simp [overlapsWith, h]
  · intro h
    by_cases hd : a.date = b.date
    · simp only [overlapsWith, hd, ne_eq, not_true_eq_false, if_false,
        Bool.and_eq_false_iff, decide_eq_false_iff_not, not_lt]
      right
      omega
    · simp [overlapsWith, hd]

/-- Claim C2 witness: the amended properties evaluated on the concrete
records of the end-to-end scenario. -/
theorem C2_overlap_properties_witness :
    (overlapsWith s0915 s1720 = true ↔
      s0915.startTime < effectiveEnd s1720 ∧ s1720.startTime < effectiveEnd s0915)
    ∧ overlapsWith s0915 s0915 = true
    ∧ overlapsWith s0915 s1720 = false :=
  ⟨(C2_overlap_properties s0915 s1720).1 rfl,
   (C2_overlap_properties s0915 s0915).2.2.1 (by decide),
   (C2_overlap_properties s0915 s1720).2.2.2 (by decide)⟩

/-- Claim C2 counterexample: the claim asserts `overlapsWith` returns true
for two shifts with identical intervals.  The saved record 09:00-09:00
(the pre-save hook indeed stores it unchanged, with `isOvernight =
false`) does not overlap itself: its half-open interval is empty. -/
theorem C2_identical_interval_counterexample :
    setOvernightOnSave s0909 = s0909 ∧ overlapsWith s0909 s0909 = false := by
  decide

unseal Rat.mul Rat.inv Rat.add Rat.sub in
/-- Claim C3 (code bug): the coverage report is claimed to count every
matched shift, split assigned versus unassigned, and yield 75% for a
group of 4 shifts with 3 assigned.  In the source the `$unwind` after the
employee `$lookup` drops every unassigned shift (empty lookup array), so
the group reports totalShifts 3, unassignedShifts 0 and 100% — even
though the unassigned shift cs4 passes the `$match` stage. -/
theorem C3_coverage_unwind_drops_unassigned :
    coverageMatch d0115 d0115 none none cs4 = true
    ∧ cs4.assignedEmployeeId = none
    ∧ (coverageReport [cs1, cs2, cs3, cs4] [e9] d0115 d0115 none none).map
        (fun r => (r.totalShifts, r.assignedShifts, r.unassignedShifts,
          r.coveragePercentage))
      = [(3, 3, 0, 100)] := by
  decide

/-- Claim C5 (amended): the stored `isOvernight` flag is true exactly when
the end time-of-day is *strictly* before the start time-of-day.  The
boundary case claimed by the spec (`endTime = startTime` also overnight)
is the one the counterexample refutes. -/
theorem C5_overnight_strict (s : ShiftRec) :
    (setOvernightOnSave s).isOvernight = true ↔ s.endTime < s.startTime := by
  simp [setOvernightOnSave]

/-- Claim C5 counterexample: a saved shift with equal start and end times
(end not after start, so the claim requires the flag to be true) is
stored with `isOvernight = false` — the hook's comparison is strict. -/
theorem C5_equal_times_counterexample :
    s0909.endTime ≤ s0909.startTime
    ∧ (setOvernightOnSave s0909).isOvernight = false := by
  decide

/-- Claim C6 (code bug): assignment validation is claimed to reject a
candidate whose role differs from the shift's `roleRequirement`.  The
role check exists only in `Shift.isEmployeeAvailable`, which no
controller calls; `assignShift` itself checks availability, skills,
conflicts and leave but never the role, so it assigns a plain employee to
a manager-required shift that the model's own eligibility method
rejects. -/
theorem C6_role_mismatch_assignment_accepted :
    e7.role ≠ m1.roleRequirement
    ∧ isEmployeeAvailable m1 e7 = false
    ∧ assignShift [m1] [e7] [] 10 7 = .ok { m1 with assignedEmployeeId := some 7 } := by
  decide

/-- Claim C4 counterexample: the claim says the per-employee
`conflictCount` (hence the summary `totalConflicts`) equals the sum of
per-shift counterpart counts, so that 3 mutually overlapping shifts
contribute 6.  For three mutually overlapping shifts of one employee the
code reports 3 — `conflictCount` is the *size of the filtered shift
list*, each conflicting shift counted once — while the sum of per-shift
counterpart counts is 6. -/
theorem C4_pairwise_sum_counterexample :
    overlapsWith t31 t32 = true ∧ overlapsWith t31 t33 = true
    ∧ overlapsWith t32 t33 = true
    ∧ totalConflicts [t31, t32, t33] [e7] d0115 d0115 none none = 3
    ∧ ([t31, t32, t33].map (fun s =>
        ([t31, t32, t33].filter (fun o => conflictCondition s o)).length)).sum = 6 := by
  decide

/-- Claim C4 (amended): in the bulk scan, a shift's counterpart count is
the number of other same-date shifts of that employee meeting the
pipeline's time condition (which, for non-overnight shifts with
start < end, coincides with the 4.2 overlap test); the per-employee
`conflictCount` is the number of shifts with at least one counterpart —
each conflicting shift counted once, so a mutual pair contributes 2 but
3 mutually overlapping shifts contribute 3, not 6 — and the summary
`totalConflicts` is the sum of these per-employee counts. -/
theorem C4_conflict_total_amended (db : List ShiftRec) (employees : List Employee)
    (qs qe : Int) (loc team : Option String)
    (h : ∀ s ∈ db, s.isOvernight = false ∧ s.startTime < s.endTime) :
    totalConflicts db employees qs qe loc team
      = ((conflictGroups db employees qs qe loc team).map (fun g =>
          (g.2.2.filter (fun s =>
            g.2.2.any (fun o => decide (o.id ≠ s.id) && overlapsWith s o))).length)).sum := by
  unfold totalConflicts conflictRows
  rw [sum_conflictRows_eq]
  congr 1
  apply List.map_congr_left
  intro g hg
  apply conflictsStage_length_overlap
  intro s hs
  exact h s (mem_db_of_mem_conflictGroups hg hs)

/-- Claim C4 witness: the amended total evaluated on the three mutually
overlapping shifts. -/
theorem C4_conflict_total_amended_witness :
    totalConflicts [t31, t32, t33] [e7] d0115 d0115 none none
      = ((conflictGroups [t31, t32, t33] [e7] d0115 d0115 none none).map (fun g =>
          (g.2.2.filter (fun s =>
            g.2.2.any (fun o => decide (o.id ≠ s.id) && overlapsWith s o))).length)).sum :=
  C4_conflict_total_amended [t31, t32, t33] [e7] d0115 d0115 none none (by decide)

/-- Claim C7 (confirmed): once the earlier checks of `assignShift` pass
(shift found and scheduled, employee found and active, no conflicts, day
available), the verdict is `insufficientSkills` exactly when the shift's
required-skill list is non-empty and the employee holds none of the
required skills; holding at least one suffices, and an empty
required-skill list passes regardless of the employee's skills. -/
theorem C7_insufficient_skills_iff (shifts : List ShiftRec) (employees : List Employee)
    (timeOffs : List TimeOffReq) (shiftId empId : Nat)
    (shift : ShiftRec) (employee : Employee)
    (hfind : shifts.find? (fun s => s.id == shiftId) = some shift)
    (hstat : shift.status = .scheduled)
    (hemp : employees.find? (fun e => e.id == empId) = some employee)
    (hact : employee.isActive = true)
    (hconf : findConflicts shifts empId shift.date shift.startTime shift.endTime
      (some shift.id) = [])
    (havail : employee.isAvailableOnDay (weekdayOf shift.date) = true) :
    assignShift shifts employees timeOffs shiftId empId = .error .insufficientSkills
      ↔ shift.skillRequirements ≠ []
        ∧ ∀ sk ∈ shift.skillRequirements, sk ∉ employee.skills := by
  simp only [assignShift, hfind, hemp, hstat, hact, hconf]
  simp only [ne_eq, not_true_eq_false, if_false, Bool.true_eq_false, not_false_eq_true,
    if_true, havail]
  by_cases hsk : shift.skillRequirements ≠ []
      ∧ shift.skillRequirements.any (fun sk => employee.skills.contains sk) = false
  · rw [if_pos hsk]
    simp only [true_iff, iff_true]
    refine ⟨hsk.1, fun sk hmem hcontra => ?_⟩
    have hall := List.any_eq_false.mp hsk.2 sk hmem
    exact hall (List.elem_eq_true_of_mem hcontra)
  · rw [if_neg hsk]
    constructor
    · intro hres
      exfalso
      rcases hfound : timeOffs.find? (fun t =>
          t.employeeId == empId && decide (t.status = .approved)
            && decide (t.startDate ≤ shift.date) && decide (shift.date ≤ t.endDate)) with
        _ | t
      · rw [hfound] at hres
        exact absurd hres (by simp)
      · rw [hfound] at hres
        exact absurd hres (by simp)
    · intro hreq
      exfalso
      apply hsk
      refine ⟨hreq.1, List.any_eq_false.mpr fun sk hmem => ?_⟩
      exact fun hc => hreq.2 sk hmem (List.mem_of_elem_eq_true hc)

/-- Claim C7 witness: the skill-check equivalence instantiated on a shift
requiring {"cooking", "serving"} and an employee holding only
"cleaning". -/
theorem C7_insufficient_skills_iff_witness :
    assignShift [c7shift] [c7emp] [] 20 21 = .error .insufficientSkills
      ↔ c7shift.skillRequirements ≠ []
        ∧ ∀ sk ∈ c7shift.skillRequirements, sk ∉ c7emp.skills :=
  C7_insufficient_skills_iff [c7shift] [c7emp] [] 20 21 c7shift c7emp
    (by decide) (by decide) (by decide) (by decide) (by decide) (by decide)

/-- Claim C8 (confirmed): every workload row with `maxHoursPerWeek = 0`
has `utilizationPercentage` computed against the floored denominator
`max(maxHoursPerWeek, 1) = 1` (no division by zero) and
`adjustedUtilizationPercentage = 0`. -/
theorem C8_zero_max_hours_utilization (db : List ShiftRec) (employees : List Employee)
    (qs qe : Int) (loc team : Option String) (role : Option Role)
    (rows : List WorkloadRow) (row : WorkloadRow)
    (hrep : workloadReport db employees qs qe loc team role = some rows)
    (hrow : row ∈ rows) (hmax : row.maxHoursPerWeek = 0) :
    row.utilizationPercentage = row.averageHoursPerWeek / 1 * 100
    ∧ row.adjustedUtilizationPercentage = 0 := by
  obtain ⟨g, hgmem, hg⟩ :=
    mem_of_optionTraverse (workloadRowOf qs qe) _ rows hrep row hrow
  simp only [workloadRowOf] at hg
  split at hg
  next => exact absurd hg (by simp)
  next avg h1 =>
    split at hg
    next => exact absurd hg (by simp)
    next u h2 =>
      have hr := Option.some.inj hg
      subst hr
      have hm : g.2.1.maxHoursPerWeek = 0 := hmax
      have hd : (max g.2.1.maxHoursPerWeek 1 : ℚ) = 1 := by
        rw [hm]
        exact max_eq_right (by norm_num)
      constructor
      · show u * 100 = avg / 1 * 100
        have hu : u = avg / 1 := by
          rw [hd] at h2
          simp only [mongoDiv, if_neg (by norm_num : ¬ (1:ℚ) = 0),
            Option.some.injEq] at h2
          exact h2.symm
        rw [hu]
      · show (if 0 < g.2.1.maxHoursPerWeek then
            min 100 (avg / g.2.1.maxHoursPerWeek * 100) else 0) = 0
        rw [hm]
        norm_num

unseal Rat.mul Rat.inv Rat.add Rat.sub in
/-- Claim C8 witness: the zero-max employee over a 7-day range yields the
single row r0max, whose utilization fields satisfy the claim. -/
theorem C8_zero_max_hours_utilization_witness :
    r0max.utilizationPercentage = r0max.averageHoursPerWeek / 1 * 100
    ∧ r0max.adjustedUtilizationPercentage = 0 :=
  C8_zero_max_hours_utilization [ws1] [e0max] d0115 19744 none none none
    [r0max] r0max (by decide) (by decide) (by decide)

unseal Rat.mul Rat.inv Rat.add Rat.sub in
/-- Claim C9 (code bug): the claim says the weekly divisor
`ceil(rangeLengthMs / week)` is never zero for a validated range, in
particular when startDate = endDate.  The range validation admits equal
dates, yet for them the divisor is `ceil(0) = 0`, and the `$divide` by it
aborts the workload aggregation (modelled as `none`) as soon as one
employee group exists. -/
theorem C9_single_day_workload_division_by_zero :
    validateAnalyticsRange d0115 d0115 = true
    ∧ weeksDivisor d0115 d0115 = 0
    ∧ workloadReport [ws1] [e0max] d0115 d0115 none none none = none := by
  decide

/-- Claim C10 (confirmed): with the date guards satisfied (start ≤ end,
start not in the past), a create request from an employee having any
scheduled/in-progress shift dated inside the inclusive range fails with
the conflict error listing exactly the conflicting shifts and persists
nothing; and a request is saved only when no such shift exists and no
approved time off of that employee overlaps the range. -/
theorem C10_timeoff_creation_guard (now : Int) (shifts : List ShiftRec)
    (timeOffs : List TimeOffReq) (empId newId : Nat) (startDate endDate : Int)
    (h1 : startDate ≤ endDate) (h2 : now ≤ startDate) :
    (∀ sh ∈ shifts, sh.assignedEmployeeId = some empId → startDate ≤ sh.date →
      sh.date ≤ endDate → (sh.status = .scheduled ∨ sh.status = .inProgress) →
      createTimeOffRequest now shifts timeOffs empId newId startDate endDate
          = .error (.shiftConflict (timeOffShiftConflicts shifts empId startDate endDate))
        ∧ timeOffDbAfterCreate now shifts timeOffs empId newId startDate endDate
          = timeOffs)
    ∧ (∀ r, createTimeOffRequest now shifts timeOffs empId newId startDate endDate
          = .ok r →
        timeOffShiftConflicts shifts empId startDate endDate = []
        ∧ approvedTimeOffOverlapping timeOffs empId startDate endDate = []) := by
  have hg1 : ¬ startDate > endDate := by omega
  have hg2 : ¬ startDate < now := by omega
  constructor
  · intro sh hsh hemp hd1 hd2 hst
    have hmem : sh ∈ timeOffShiftConflicts shifts empId startDate endDate := by
      unfold timeOffShiftConflicts
      refine List.mem_filter.mpr ⟨hsh, ?_⟩
      simp only [Bool.and_eq_true, Bool.or_eq_true, decide_eq_true_eq]
      exact ⟨⟨⟨hemp, hd1⟩, hd2⟩, hst⟩
    have hne : timeOffShiftConflicts shifts empId startDate endDate ≠ [] :=
      List.ne_nil_of_mem hmem
    have hcreate : createTimeOffRequest now shifts timeOffs empId newId startDate endDate
        = .error (.shiftConflict (timeOffShiftConflicts shifts empId startDate endDate)) := by
      simp only [createTimeOffRequest]
      rw [if_neg hg1, if_neg hg2, if_pos hne]
    refine ⟨hcreate, ?_⟩
    simp [timeOffDbAfterCreate, hcreate]
  · intro r hr
    by_cases hc : timeOffShiftConflicts shifts empId startDate endDate = []
    · by_cases ho : approvedTimeOffOverlapping timeOffs empId startDate endDate = []
      · exact ⟨hc, ho⟩
      · exfalso
        simp only [createTimeOffRequest] at hr
        rw [if_neg hg1, if_neg hg2, if_neg (fun hcc => hcc hc), if_pos ho] at hr
        exact Except.noConfusion hr
    · exfalso
      simp only [createTimeOffRequest] at hr
      rw [if_neg hg1, if_neg hg2, if_pos hc] at hr
      exact Except.noConfusion hr

/-- Claim C10 witness: employee 7 has the scheduled shift s0915 on
2024-01-15; a request for 2024-01-15..2024-01-16 (with the clock at day
0) fails with the conflict error and saves nothing. -/
theorem C10_timeoff_creation_guard_witness :
    createTimeOffRequest 0 [s0915] [] 7 99 d0115 (d0115 + 1)
        = .error (.shiftConflict (timeOffShiftConflicts [s0915] 7 d0115 (d0115 + 1)))
    ∧ timeOffDbAfterCreate 0 [s0915] [] 7 99 d0115 (d0115 + 1) = [] :=
  (C10_timeoff_creation_guard 0 [s0915] [] 7 99 d0115 (d0115 + 1)
      (by decide) (by decide)).1
    s0915 (by decide) (by decide) (by decide) (by decide) (by decide)
